import Mathlib

/-!
configmap-puller: the reconciliation loop of `cmd/configmap-puller/main.go`.

The program runs two goroutines.  The goroutine started in `watchConfigMap`
(main.go:126-150) selects over `ctx.Done()`, the watch subscription and the
resync ticker and sends on the unbuffered channels `errChan` / `dataChan`.
The `for`/`select` loop of `main` (main.go:86-107) receives from these channels
and from `ctx.Done()`, compares against `previousData` and calls `writeFile`.

Because both channels are unbuffered, every send of the goroutine is a
rendezvous with one iteration of the loop of `main`.  One `Selected` value
below is one such linearised step: what the goroutine selected, followed by
the iteration of `main` that receives what the goroutine sends (if anything).
-/

namespace ConfigmapPuller

/-! ## Data model -/

/-- Constants of `watch.EventType` (k8s.io/apimachinery/pkg/watch).  The empty
type of the zero event read from a closed result channel is not modelled. -/
inductive EventType
  | Added
  | Modified
  | Deleted
  | Bookmark
  | Error
  deriving DecidableEq, Repr

/-- The part of `v1.ConfigMap` the program reads: the `Data` map.  A Go
`map[string]string` is embedded as an association list (the nil map is `[]`). -/
structure ConfigMap where
  Data : List (String × String)
  deriving DecidableEq, Repr

/-- A `runtime.Object` carried by a watch event: a `*v1.ConfigMap`, or some
other object (a `*metav1.Status` on events of type Error). -/
inductive RuntimeObject
  | configMap (cm : ConfigMap)
  | status (message : String)
  deriving DecidableEq, Repr

/-- A `watch.Event`. -/
structure Event where
  type : EventType
  object : RuntimeObject
  deriving DecidableEq, Repr

/-- Go map indexing `m[k]` on a `map[string]string`: the zero value `""` when
the key is absent. -/
def mapIndex (m : List (String × String)) (k : String) : String :=
  match m.lookup k with
  | some v => v
  | none => ""

/-- What the operating system does with one call of `writeFile`: `os.OpenFile`
fails; or the file is opened (and truncated, `O_TRUNC`) and `WriteString`
fails leaving `left` in the file; or both succeed. -/
inductive OsResult
  | openFails (err : String)
  | writeFails (left : String) (err : String)
  | ok
  deriving DecidableEq, Repr

/-- One recorded call of `writeFile`: the content passed and the error
returned (`none` is Go's `nil`). -/
structure WriteCall where
  data : String
  err : Option String
  deriving DecidableEq, Repr

/-- `writeFile` (main.go:155-167) on the destination file with content `file`.
Returns the new content of the file and the returned error. -/
def writeFile (r : OsResult) (file : String) (data : String) : String × Option String :=
  match r with
  | .openFails e => (file, some ("could not open file for writing: " ++ e))
  | .writeFails left e => (left, some ("could not open file for writing: " ++ e))
  | .ok => (data, none)

/-- State at the head of the `for` loop of `main` (main.go:88): the local
`previousData`, the content of the destination file, and (ghost) the calls of
`writeFile` made so far, oldest first. -/
structure LoopState where
  previousData : String
  file : String
  calls : List WriteCall
  deriving DecidableEq, Repr

/-- State when the loop is entered (main.go:86): `previousData := ""`. -/
def LoopState.init (file : String) : LoopState :=
  { previousData := "", file := file, calls := [] }

/-- Contents passed to `writeFile` so far, oldest first. -/
def LoopState.writes (s : LoopState) : List String :=
  s.calls.map WriteCall.data

/-- Result of running the loop: it is at the head of the next iteration
(Running), it has returned after `ctx.Done()` (Terminated), or the process
has panicked with the given value. -/
inductive Outcome
  | running (s : LoopState)
  | terminated (s : LoopState)
  | panicked (err : String) (s : LoopState)
  deriving DecidableEq, Repr

/-- The loop state an outcome ends in. -/
def Outcome.state : Outcome → LoopState
  | .running s => s
  | .terminated s => s
  | .panicked _ s => s

/-- Whether the process has panicked. -/
def Outcome.hasPanicked : Outcome → Bool
  | .panicked _ _ => true
  | _ => false

/-! ## The goroutine of `watchConfigMap` (main.go:126-150) -/

/-- The case selected by one iteration of the goroutine's `select`. -/
inductive Selected
  | done
  | event (ev : Event)
  | tick (res : Except String ConfigMap)

/-- What one iteration of the goroutine does. -/
inductive Effect
  | exit
  | skip
  | sendErr (err : String)
  | sendData (data : String)
  | assertPanic
  deriving DecidableEq, Repr

/-- One iteration of the goroutine of `watchConfigMap` (main.go:129-148);
`configmapKey` is the flag `*configmapKey`.  On a tick `res` is the result of
`ConfigMaps(namespace).Get`. -/
def watchConfigMap (configmapKey : String) : Selected → Effect
  | .done => .exit
  | .event ev =>
    if ev.type ≠ EventType.Added ∧ ev.type ≠ EventType.Modified then .skip
    else
      match ev.object with
      | .configMap cm => .sendData (mapIndex cm.Data configmapKey)
      | .status _ => .assertPanic
  | .tick res =>
    match res with
    | .error e => .sendErr e
    | .ok cm => .sendData (mapIndex cm.Data configmapKey)

/-! ## The loop of `main` (main.go:86-107) -/

/-- The case selected by one iteration of the `select` of `main`. -/
inductive Received
  | done
  | err (e : String)
  | data (v : String)

/-- One iteration of the `for`/`select` of `main` (main.go:88-107).  `os n` is
what the operating system does with the call of `writeFile` that follows `n`
earlier calls. -/
def main (os : Nat → OsResult) (s : LoopState) : Received → Outcome
  | .done => .terminated s
  | .err e => .panicked e s
  | .data data =>
    if data = s.previousData then .running s
    else
      match writeFile (os s.calls.length) s.file data with
      | (file, some err) =>
        .panicked err { s with file := file, calls := s.calls ++ [⟨data, some err⟩] }
      | (file, none) =>
        .running { previousData := data, file := file, calls := s.calls ++ [⟨data, none⟩] }

/-! ## The two goroutines together -/

/-- One linearised step of the program: the goroutine of `watchConfigMap`
handles `sel`; what it sends is received by the loop of `main`.  `Selected.done`
is the cancellation being received by `main`. -/
def step (os : Nat → OsResult) (configmapKey : String) (s : LoopState) (sel : Selected) : Outcome :=
  match watchConfigMap configmapKey sel with
  | .exit => main os s .done
  | .skip => .running s
  | .sendErr e => main os s (.err e)
  | .sendData v => main os s (.data v)
  | .assertPanic => .panicked "interface conversion: runtime.Object is not *v1.ConfigMap" s

/-- Run the program on a sequence of steps; nothing is handled once the
process has returned or panicked. -/
def run (os : Nat → OsResult) (configmapKey : String) (s : LoopState) : List Selected → Outcome
  | [] => .running s
  | sel :: rest =>
    match step os configmapKey s sel with
    | .running s' => run os configmapKey s' rest
    | o => o

/-- Every call of `writeFile` succeeds. -/
def allOk : Nat → OsResult := fun _ => .ok

/-- Every call of `writeFile` fails in `os.OpenFile`. -/
def allFail : Nat → OsResult := fun _ => .openFails "permission denied"

/-- A Created notification: a watch event of type Added carrying the ConfigMap. -/
def created (data : List (String × String)) : Selected :=
  .event ⟨.Added, .configMap ⟨data⟩⟩

/-- An Updated notification: a watch event of type Modified carrying the ConfigMap. -/
def updated (data : List (String × String)) : Selected :=
  .event ⟨.Modified, .configMap ⟨data⟩⟩

/-- A tick whose fetch succeeds with the given ConfigMap data. -/
def tickOk (data : List (String × String)) : Selected :=
  .tick (.ok ⟨data⟩)

/-- An observation of the tracked value: where it comes from. -/
inductive Source
  | created
  | updated
  | tick
  deriving DecidableEq, Repr

/-- One observation of the ConfigMap: a Created or Updated notification, or a
tick whose fetch succeeded, with the data map seen. -/
structure Observation where
  source : Source
  data : List (String × String)
  deriving DecidableEq, Repr

/-- The step of the program an observation is. -/
def Observation.toSelected (o : Observation) : Selected :=
  match o.source with
  | .created => created o.data
  | .updated => updated o.data
  | .tick => tickOk o.data

/-- The observed value of the tracked field. -/
def Observation.value (configmapKey : String) (o : Observation) : String :=
  mapIndex o.data configmapKey

/-- One element per maximal run of consecutive identical values, in order
(the dedup property as the specification words it). -/
def onePerRun : List String → List String
  | [] => []
  | [a] => [a]
  | a :: b :: t => if a = b then onePerRun (b :: t) else a :: onePerRun (b :: t)

/-- Content of the most recent call of `writeFile` that returned `nil`, or
`""` when there is none. -/
def lastWritten (s : LoopState) : String :=
  ((s.calls.filter (fun c => c.err.isNone)).map WriteCall.data).getLast?.getD ""

/-- Content most recently passed to `writeFile`, or `""` when there is none. -/
def lastPassed (s : LoopState) : String :=
  s.writes.getLast?.getD ""

/-- Whether the most recent call of `writeFile` returned an error. -/
def lastCallFailed (s : LoopState) : Bool :=
  match s.calls.getLast? with
  | some c => c.err.isSome
  | none => false

/-! ## Lemmas -/

theorem step_observation (os : Nat → OsResult) (key : String) (s : LoopState) (o : Observation) :
    step os key s o.toSelected = main os s (.data (o.value key)) := by
  cases o with
  | mk src d => cases src <;> rfl

theorem main_data_same (os : Nat → OsResult) (s : LoopState) :
    main os s (.data s.previousData) = .running s := by
  simp [main]

theorem main_data_ok (os : Nat → OsResult) (s : LoopState) (v : String)
    (hne : v ≠ s.previousData) (hok : os s.calls.length = .ok) :
    main os s (.data v) = .running ⟨v, v, s.calls ++ [⟨v, none⟩]⟩ := by
  simp [main, hne, hok, writeFile]

theorem main_data_fail (os : Nat → OsResult) (s : LoopState) (v e : String)
    (hne : v ≠ s.previousData) (hfail : (writeFile (os s.calls.length) s.file v).2 = some e) :
    main os s (.data v) = .panicked e
      { s with file := (writeFile (os s.calls.length) s.file v).1,
               calls := s.calls ++ [⟨v, some e⟩] } := by
  unfold main
  simp only [hne, if_false]
  rcases hw : writeFile (os s.calls.length) s.file v with ⟨f, r⟩
  rw [hw] at hfail
  simp only at hfail
  subst hfail
  rfl

theorem run_cons_running (os : Nat → OsResult) (key : String) (s s' : LoopState)
    (sel : Selected) (rest : List Selected) (h : step os key s sel = .running s') :
    run os key s (sel :: rest) = run os key s' rest := by
  simp [run, h]

theorem run_cons_terminated (os : Nat → OsResult) (key : String) (s s' : LoopState)
    (sel : Selected) (rest : List Selected) (h : step os key s sel = .terminated s') :
    run os key s (sel :: rest) = .terminated s' := by
  simp [run, h]

theorem run_cons_panicked (os : Nat → OsResult) (key : String) (s s' : LoopState) (e : String)
    (sel : Selected) (rest : List Selected) (h : step os key s sel = .panicked e s') :
    run os key s (sel :: rest) = .panicked e s' := by
  simp [run, h]

theorem run_append_running (os : Nat → OsResult) (key : String) (pre post : List Selected) :
    ∀ (s s' : LoopState), run os key s pre = .running s' →
      run os key s (pre ++ post) = run os key s' post := by
  induction pre with
  | nil =>
    intro s s' h
    simp only [run, Outcome.running.injEq] at h
    subst h
    rfl
  | cons sel pre ih =>
    intro s s' h
    rcases hs : step os key s sel with s1 | s1 | ⟨e, s1⟩
    · rw [run_cons_running os key s s1 sel pre hs] at h
      rw [List.cons_append, run_cons_running os key s s1 sel (pre ++ post) hs]
      exact ih s1 s' h
    · rw [run_cons_terminated os key s s1 sel pre hs] at h
      cases h
    · rw [run_cons_panicked os key s s1 e sel pre hs] at h
      cases h

theorem getLastD_cons_irrel (a x y : String) (l : List String) :
    ((a :: l).getLast?).getD x = ((a :: l).getLast?).getD y := by
  rw [List.getLast?_eq_getLast _ (List.cons_ne_nil a l)]
  rfl

theorem onePerRun_cons (a : String) (t : List String) :
    onePerRun (a :: t) = a :: (onePerRun (a :: t)).tail := by
  induction t generalizing a with
  | nil => rfl
  | cons b t ih =>
    by_cases hab : a = b
    · subst hab
      simpa [onePerRun] using ih a
    · simp [onePerRun, hab]

theorem onePerRun_tail_empty (vs : List String) :
    (onePerRun ("" :: vs)).tail = onePerRun (vs.dropWhile (fun v => decide (v = ""))) := by
  induction vs with
  | nil => rfl
  | cons v t ih =>
    by_cases hv : v = ""
    · subst hv
      simpa [onePerRun, List.dropWhile] using ih
    · have hv' : ¬ ("" = v) := fun h => hv h.symm
      simp [onePerRun, List.dropWhile, hv, hv']

theorem onePerRun_eq_destutter (vs : List String) :
    onePerRun vs = List.destutter (fun a b => a ≠ b) vs := by
  cases vs with
  | nil => rfl
  | cons a t =>
    induction t generalizing a with
    | nil => rfl
    | cons b t ih =>
      by_cases hab : a = b
      · subst hab
        simpa [onePerRun, List.destutter, List.destutter'] using ih a
      · have := ih b
        simp only [List.destutter] at this
        simp [onePerRun, List.destutter, List.destutter', hab, this]

/-- With every write succeeding, a run of observations from any loop state
stays Running; the new calls are the run heads of the values after
`previousData`. -/
theorem run_observations (key : String) (obs : List Observation) :
    ∀ s : LoopState,
      run allOk key s (obs.map Observation.toSelected) =
        .running
          { previousData := ((obs.map (Observation.value key)).getLast?).getD s.previousData,
            file := ((onePerRun (s.previousData :: obs.map (Observation.value key))).tail.getLast?).getD s.file,
            calls := s.calls ++
              (onePerRun (s.previousData :: obs.map (Observation.value key))).tail.map
                (fun v => (⟨v, none⟩ : WriteCall)) } := by
  induction obs with
  | nil =>
    intro s
    simp [run, onePerRun]
  | cons o obs ih =>
    intro s
    by_cases hv : o.value key = s.previousData
    · have hstep : step allOk key s o.toSelected = .running s := by
        rw [step_observation, hv, main_data_same]
      rw [List.map_cons, run_cons_running allOk key s s _ _ hstep, ih s]
      have hlast : ((List.map (Observation.value key) (o :: obs)).getLast?).getD s.previousData
          = ((List.map (Observation.value key) obs).getLast?).getD s.previousData := by
        cases obs with
        | nil => simp [hv]
        | cons o2 obs2 => simp [List.getLast?_cons_cons]
      rw [hlast]
      simp [onePerRun, hv]
    · have hstep : step allOk key s o.toSelected
          = .running ⟨o.value key, o.value key, s.calls ++ [⟨o.value key, none⟩]⟩ := by
        rw [step_observation]
        exact main_data_ok allOk s _ hv rfl
      rw [List.map_cons, run_cons_running allOk key s _ _ _ hstep, ih _]
      have hv' : ¬ (s.previousData = o.value key) := fun h => hv h.symm
      have hlast : ((List.map (Observation.value key) (o :: obs)).getLast?).getD s.previousData
          = ((List.map (Observation.value key) obs).getLast?).getD (o.value key) := by
        cases obs with
        | nil => simp
        | cons o2 obs2 =>
          simp only [List.map_cons, List.getLast?_cons_cons]
          exact getLastD_cons_irrel _ _ _ _
      rw [hlast]
      have hcons := onePerRun_cons (o.value key) (List.map (Observation.value key) obs)
      simp only [List.map_cons, onePerRun, hv', if_false, List.tail_cons]
      generalize (onePerRun (o.value key :: List.map (Observation.value key) obs)).tail = tl at hcons ⊢
      rw [hcons]
      simp only [List.map_cons, List.append_assoc, List.singleton_append, Outcome.running.injEq,
        LoopState.mk.injEq, true_and, and_true]
      cases tl with
      | nil => simp
      | cons a tl =>
        simp only [List.getLast?_cons_cons]
        exact getLastD_cons_irrel _ _ _ _

theorem main_data_cases (os : Nat → OsResult) (s : LoopState) (v : String)
    (hv : v ≠ s.previousData) :
    (∃ f, main os s (.data v) = .running ⟨v, f, s.calls ++ [⟨v, none⟩]⟩) ∨
    (∃ f e, main os s (.data v) = .panicked e ⟨s.previousData, f, s.calls ++ [⟨v, some e⟩]⟩) := by
  have hm : main os s (.data v) =
      (match writeFile (os s.calls.length) s.file v with
       | (file, some err) =>
         .panicked err { s with file := file, calls := s.calls ++ [⟨v, some err⟩] }
       | (file, none) =>
         .running { previousData := v, file := file, calls := s.calls ++ [⟨v, none⟩] }) := by
    simp [main, hv]
  rcases hw : writeFile (os s.calls.length) s.file v with ⟨f, _ | e⟩
  · rw [hw] at hm
    exact Or.inl ⟨f, hm⟩
  · rw [hw] at hm
    exact Or.inr ⟨f, e, hm⟩

/-- The five things one step can do to the loop state. -/
theorem step_cases (os : Nat → OsResult) (key : String) (s : LoopState) (sel : Selected) :
    step os key s sel = .running s ∨ step os key s sel = .terminated s ∨
    (∃ e, step os key s sel = .panicked e s) ∨
    (∃ v f, v ≠ s.previousData ∧
      step os key s sel = .running ⟨v, f, s.calls ++ [⟨v, none⟩]⟩) ∨
    (∃ v f e, v ≠ s.previousData ∧
      step os key s sel = .panicked e ⟨s.previousData, f, s.calls ++ [⟨v, some e⟩]⟩) := by
  cases hw : watchConfigMap key sel with
  | exit =>
    have hst : step os key s sel = .terminated s := by unfold step; rw [hw]; rfl
    exact Or.inr (Or.inl hst)
  | skip =>
    have hst : step os key s sel = .running s := by unfold step; rw [hw]
    exact Or.inl hst
  | sendErr e =>
    have hst : step os key s sel = .panicked e s := by unfold step; rw [hw]; rfl
    exact Or.inr (Or.inr (Or.inl ⟨e, hst⟩))
  | sendData v =>
    have hst : step os key s sel = main os s (.data v) := by unfold step; rw [hw]
    rw [hst]
    by_cases hv : v = s.previousData
    · left
      rw [hv, main_data_same]
    · rcases main_data_cases os s v hv with ⟨f, h⟩ | ⟨f, e, h⟩
      · exact Or.inr (Or.inr (Or.inr (Or.inl ⟨v, f, hv, h⟩)))
      · exact Or.inr (Or.inr (Or.inr (Or.inr ⟨v, f, e, hv, h⟩)))
  | assertPanic =>
    have hst : step os key s sel =
        .panicked "interface conversion: runtime.Object is not *v1.ConfigMap" s := by
      unfold step; rw [hw]
    exact Or.inr (Or.inr (Or.inl ⟨_, hst⟩))

/-- An invariant kept by every step, whatever the outcome, holds after every run. -/
theorem run_invariant (P : LoopState → Prop) (os : Nat → OsResult) (key : String)
    (hstep : ∀ s sel, P s → P (step os key s sel).state) (ins : List Selected) :
    ∀ s, P s → P (run os key s ins).state := by
  induction ins with
  | nil => intro s hs; exact hs
  | cons sel rest ih =>
    intro s hs
    have h1 := hstep s sel hs
    rcases hst : step os key s sel with s1 | s1 | ⟨e, s1⟩
    · rw [run_cons_running os key s s1 sel rest hst]
      rw [hst] at h1
      exact ih s1 h1
    · rw [run_cons_terminated os key s s1 sel rest hst]
      rw [hst] at h1
      exact h1
    · rw [run_cons_panicked os key s s1 e sel rest hst]
      rw [hst] at h1
      exact h1

theorem step_keeps_lastWritten (os : Nat → OsResult) (key : String) (s : LoopState)
    (sel : Selected) (h : s.previousData = lastWritten s) :
    (step os key s sel).state.previousData = lastWritten (step os key s sel).state := by
  rcases step_cases os key s sel with h1 | h1 | ⟨e, h1⟩ | ⟨v, f, _, h1⟩ | ⟨v, f, e, _, h1⟩ <;>
    rw [h1]
  · exact h
  · exact h
  · exact h
  · simp [Outcome.state, lastWritten, List.filter_append]
  · simpa [Outcome.state, lastWritten, List.filter_append] using h

theorem step_alive_keeps_allNil (os : Nat → OsResult) (key : String) (s : LoopState)
    (sel : Selected) (s' : LoopState) (h : ∀ c ∈ s.calls, c.err = none)
    (hs : step os key s sel = .running s' ∨ step os key s sel = .terminated s') :
    ∀ c ∈ s'.calls, c.err = none := by
  rcases step_cases os key s sel with h1 | h1 | ⟨e, h1⟩ | ⟨v, f, _, h1⟩ | ⟨v, f, e, _, h1⟩ <;>
    rw [h1] at hs <;> rcases hs with hs | hs <;> cases hs
  · exact h
  · exact h
  · intro c hc
    simp only [List.mem_append, List.mem_singleton] at hc
    rcases hc with hc | hc
    · exact h c hc
    · rw [hc]

theorem lastWritten_eq_lastPassed (s : LoopState) (h : ∀ c ∈ s.calls, c.err = none) :
    lastWritten s = lastPassed s := by
  have hf : s.calls.filter (fun c => c.err.isNone) = s.calls := by
    rw [List.filter_eq_self]
    intro c hc
    simp [h c hc]
  simp [lastWritten, lastPassed, LoopState.writes, hf]

theorem step_keeps_first_write (os : Nat → OsResult) (key : String) (s : LoopState)
    (sel : Selected)
    (h : s.writes.head? ≠ some "" ∧ (s.calls = [] → s.previousData = "")) :
    (step os key s sel).state.writes.head? ≠ some "" ∧
      ((step os key s sel).state.calls = [] → (step os key s sel).state.previousData = "") := by
  have happ : ∀ (v : String) (r : Option String), v ≠ s.previousData →
      (List.map WriteCall.data (s.calls ++ [⟨v, r⟩])).head? ≠ some "" := by
    intro v r hv
    cases hc : s.calls with
    | nil =>
      have hp := h.2 hc
      rw [hp] at hv
      simpa using hv
    | cons c cs =>
      have h1 := h.1
      simp only [LoopState.writes, hc] at h1
      simpa using h1
  rcases step_cases os key s sel with h1 | h1 | ⟨e, h1⟩ | ⟨v, f, hv, h1⟩ | ⟨v, f, e, hv, h1⟩ <;>
    rw [h1]
  · exact h
  · exact h
  · exact h
  · exact ⟨happ v none hv, fun hc => by simp [Outcome.state] at hc⟩
  · exact ⟨happ v (some e) hv, fun hc => by simp [Outcome.state] at hc⟩

/-- From a state in which every call of `writeFile` succeeded, a run ends in
such a state or in the state of a failed call. -/
theorem run_allNil_or_failed (os : Nat → OsResult) (key : String) (ins : List Selected) :
    ∀ s : LoopState, (∀ c ∈ s.calls, c.err = none) →
      (∀ c ∈ (run os key s ins).state.calls, c.err = none) ∨
        lastCallFailed (run os key s ins).state = true := by
  induction ins with
  | nil => intro s hs; exact Or.inl hs
  | cons sel rest ih =>
    intro s hs
    rcases hst : step os key s sel with s1 | s1 | ⟨e, s1⟩
    · rw [run_cons_running os key s s1 sel rest hst]
      exact ih s1 (step_alive_keeps_allNil os key s sel s1 hs (Or.inl hst))
    · rw [run_cons_terminated os key s s1 sel rest hst]
      exact Or.inl (step_alive_keeps_allNil os key s sel s1 hs (Or.inr hst))
    · rw [run_cons_panicked os key s s1 e sel rest hst]
      rcases step_cases os key s sel with h1 | h1 | ⟨e', h1⟩ | ⟨v, f, _, h1⟩ | ⟨v, f, e', _, h1⟩ <;>
        rw [h1] at hst <;> cases hst
      · exact Or.inl hs
      · right
        simp [Outcome.state, lastCallFailed]

/-- Scenario A of the specification: Created `"A"` is written, Updated `"A"`
is not, Updated `"B"` is written, a tick fetching `"B"` is not, a tick fetching
`"C"` is written, and cancellation terminates with `previousData = "C"`. -/
theorem scenario_A :
    run allOk "rules.toml" (LoopState.init "")
      [created [("rules.toml", "A")], updated [("rules.toml", "A")], updated [("rules.toml", "B")],
       tickOk [("rules.toml", "B")], tickOk [("rules.toml", "C")], .done]
      = .terminated ⟨"C", "C", [⟨"A", none⟩, ⟨"B", none⟩, ⟨"C", none⟩]⟩ := by
  decide

/-- Scenario B of the specification: a tick whose fetch fails panics without
any call of `writeFile`. -/
theorem scenario_B :
    run allOk "rules.toml" (LoopState.init "") [.tick (.error "context deadline exceeded")]
      = .panicked "context deadline exceeded" (LoopState.init "") := by
  decide

/-! ## The claims -/

/-- C1 (as stated, refuted): the observed values `""`, `"A"` have two maximal
runs, so the claim predicts the writes `""`, `"A"`; the program, which starts
with `previousData = ""`, writes only `"A"`. -/
theorem C1_dedup_counterexample :
    (run allOk "rules.toml" (LoopState.init "")
        (List.map Observation.toSelected
          [⟨.created, [("rules.toml", "")]⟩, ⟨.updated, [("rules.toml", "A")]⟩])).state.writes
      ≠ onePerRun (List.map (Observation.value "rules.toml")
          [⟨.created, [("rules.toml", "")]⟩, ⟨.updated, [("rules.toml", "A")]⟩]) := by
  decide

/-- C1 (amended): starting from the initial state with every write
succeeding, for every sequence of observations (Created, Updated, successful
tick, in any interleaving) the program stays Running, the contents passed to
`writeFile` are one element per maximal run of consecutive identical observed
values once the leading run of empty values is dropped, every such call
returns nil, the file holds the last write, and `previousData` is the last
observed value (empty when nothing was observed). -/
theorem C1_dedup_after_leading_empty (key file : String) (obs : List Observation) :
    run allOk key (LoopState.init file) (obs.map Observation.toSelected) =
      .running
        { previousData := ((obs.map (Observation.value key)).getLast?).getD "",
          file := ((onePerRun ((obs.map (Observation.value key)).dropWhile
                    (fun v => decide (v = "")))).getLast?).getD file,
          calls := (onePerRun ((obs.map (Observation.value key)).dropWhile
                    (fun v => decide (v = "")))).map (fun v => (⟨v, none⟩ : WriteCall)) } := by
  rw [run_observations key obs (LoopState.init file)]
  simp [LoopState.init, onePerRun_tail_empty]

/-- C2 (as stated, refuted): from the initial state a Created notification
with value `"A"` differs from `previousData`, yet when `writeFile` fails the
handling does not end with `previousData = "A"`: the process panics and
`previousData` is still empty. -/
theorem C2_notification_counterexample :
    mapIndex [("rules.toml", "A")] "rules.toml" ≠ (LoopState.init "").previousData ∧
    (step allFail "rules.toml" (LoopState.init "") (created [("rules.toml", "A")])).state.previousData
      ≠ mapIndex [("rules.toml", "A")] "rules.toml" := by
  decide

/-- C2 (amended): handling one Created (Added) or Updated (Modified)
notification carrying the data map `d`, with `v = d[configmapKey]` (empty when
the key is absent).  If `v` equals `previousData`, no call of `writeFile` is
issued and the state is unchanged.  If `v` differs from `previousData`, exactly
one call of `writeFile` is issued, with content `v`; when that call succeeds
the loop stays Running with `previousData = v`, and when it fails the process
panics with `previousData` unchanged. -/
theorem C2_notification (os : Nat → OsResult) (key : String) (s : LoopState)
    (ty : EventType) (d : List (String × String)) (hty : ty = .Added ∨ ty = .Modified) :
    if mapIndex d key = s.previousData then
      step os key s (.event ⟨ty, .configMap ⟨d⟩⟩) = .running s
    else
      (step os key s (.event ⟨ty, .configMap ⟨d⟩⟩)).state.writes = s.writes ++ [mapIndex d key] ∧
      (if os s.calls.length = .ok then
        step os key s (.event ⟨ty, .configMap ⟨d⟩⟩) =
          .running ⟨mapIndex d key, mapIndex d key, s.calls ++ [⟨mapIndex d key, none⟩]⟩
      else
        (step os key s (.event ⟨ty, .configMap ⟨d⟩⟩)).hasPanicked = true ∧
        (step os key s (.event ⟨ty, .configMap ⟨d⟩⟩)).state.previousData = s.previousData) := by
  have hstep : step os key s (.event ⟨ty, .configMap ⟨d⟩⟩) = main os s (.data (mapIndex d key)) := by
    rcases hty with h | h <;> subst h <;> rfl
  rw [hstep]
  by_cases heq : mapIndex d key = s.previousData
  · rw [if_pos heq, heq, main_data_same]
  · rw [if_neg heq]
    by_cases hok : os s.calls.length = .ok
    · rw [if_pos hok, main_data_ok os s _ heq hok]
      exact ⟨by simp [Outcome.state, LoopState.writes], rfl⟩
    · rw [if_neg hok]
      have hfail : ∃ e, (writeFile (os s.calls.length) s.file (mapIndex d key)).2 = some e := by
        cases hos : os s.calls.length with
        | openFails e => exact ⟨_, rfl⟩
        | writeFails l e => exact ⟨_, rfl⟩
        | ok => exact absurd hos hok
      rcases hfail with ⟨e, he⟩
      rw [main_data_fail os s _ e heq he]
      exact ⟨by simp [Outcome.state, LoopState.writes], rfl, rfl⟩

/-- C2 (witness): a Created notification with `"A"` from the initial state
with a succeeding write. -/
theorem C2_notification_witness :
    step allOk "rules.toml" (LoopState.init "") (.event ⟨.Added, .configMap ⟨[("rules.toml", "A")]⟩⟩)
      = .running ⟨"A", "A", [⟨"A", none⟩]⟩ := by
  have h := C2_notification allOk "rules.toml" (LoopState.init "") .Added [("rules.toml", "A")]
    (Or.inl rfl)
  rw [if_neg (by decide)] at h
  have h2 := h.2
  rw [if_pos (by decide)] at h2
  exact h2

/-- C3 (as stated, refuted): from the initial state, a Created notification
with value `"A"` whose write fails leaves `previousData` empty although the
content most recently passed to `writeFile` is `"A"`. -/
theorem C3_invariant_counterexample :
    (run allFail "rules.toml" (LoopState.init "") [created [("rules.toml", "A")]]).state.previousData
      ≠ lastPassed (run allFail "rules.toml" (LoopState.init "") [created [("rules.toml", "A")]]).state := by
  decide

/-- C3 (amended): in every state reachable from the initial state by any
sequence of steps (notifications of any type, tick results, errors,
cancellation) and whatever the writes do, `previousData` equals the content of
the most recent call of `writeFile` that succeeded, or is empty if none has
succeeded yet; and except in the state reached by a failed call of
`writeFile`, that is the content most recently passed to `writeFile`. -/
theorem C3_invariant (os : Nat → OsResult) (key file : String) (ins : List Selected) :
    (run os key (LoopState.init file) ins).state.previousData
      = lastWritten (run os key (LoopState.init file) ins).state ∧
    (lastCallFailed (run os key (LoopState.init file) ins).state = true ∨
      (run os key (LoopState.init file) ins).state.previousData
        = lastPassed (run os key (LoopState.init file) ins).state) := by
  have h1 := run_invariant (fun s => s.previousData = lastWritten s) os key
    (fun s sel hs => step_keeps_lastWritten os key s sel hs) ins (LoopState.init file) rfl
  refine ⟨h1, ?_⟩
  rcases run_allNil_or_failed os key ins (LoopState.init file) (by simp [LoopState.init])
    with h2 | h2
  · right
    rw [← lastWritten_eq_lastPassed _ h2]
    exact h1
  · exact Or.inl h2

/-- C4: a tick whose fetch succeeds with tracked value `v` has exactly the
outcome (same calls of `writeFile`, same `previousData`, same file) an Updated
notification carrying `v` has from the same state; when `v` equals
`previousData` no call is made and the state is unchanged, and when `v`
differs from `previousData` exactly one call of `writeFile` is made, with
content `v`. -/
theorem C4_tick_shares_gate (os : Nat → OsResult) (key : String) (s : LoopState)
    (fetched notified : List (String × String)) (v : String)
    (hf : mapIndex fetched key = v) (hn : mapIndex notified key = v) :
    step os key s (tickOk fetched) = step os key s (updated notified) ∧
    (if v = s.previousData then step os key s (tickOk fetched) = .running s
     else (step os key s (tickOk fetched)).state.writes = s.writes ++ [v]) := by
  have ht : step os key s (tickOk fetched) = main os s (.data v) := by rw [← hf]; rfl
  have hu : step os key s (updated notified) = main os s (.data v) := by rw [← hn]; rfl
  rw [ht, hu]
  refine ⟨rfl, ?_⟩
  by_cases hv : v = s.previousData
  · rw [if_pos hv, hv, main_data_same]
  · rw [if_neg hv]
    rcases main_data_cases os s v hv with ⟨f, h⟩ | ⟨f, e, h⟩ <;>
      rw [h] <;> simp [Outcome.state, LoopState.writes]

/-- C4 (witness): after `"B"` was written, a tick fetching `"C"` has the
outcome of an Updated notification carrying `"C"`. -/
theorem C4_tick_shares_gate_witness :
    step allOk "rules.toml" ⟨"B", "B", [⟨"B", none⟩]⟩ (tickOk [("rules.toml", "C")])
      = step allOk "rules.toml" ⟨"B", "B", [⟨"B", none⟩]⟩
          (updated [("other", "x"), ("rules.toml", "C")]) :=
  (C4_tick_shares_gate allOk "rules.toml" ⟨"B", "B", [⟨"B", none⟩]⟩ [("rules.toml", "C")]
      [("other", "x"), ("rules.toml", "C")] "C" (by decide) (by decide)).1

/-- C5 (as stated, refuted): a watch event of type Error handled from the
initial state does not panic; the loop stays Running in the same state and a
later Created notification is still processed and written. -/
theorem C5_error_event_counterexample :
    step allOk "rules.toml" (LoopState.init "") (.event ⟨.Error, .status "too old resource version"⟩)
      = .running (LoopState.init "") ∧
    (step allOk "rules.toml" (LoopState.init "")
      (.event ⟨.Error, .status "too old resource version"⟩)).hasPanicked = false ∧
    run allOk "rules.toml" (LoopState.init "")
      [.event ⟨.Error, .status "too old resource version"⟩, created [("rules.toml", "A")]]
      = .running ⟨"A", "A", [⟨"A", none⟩]⟩ := by
  decide

/-- C5 (amended): a watch event of type Error is skipped by the goroutine of
`watchConfigMap` whatever object it carries: nothing is sent to the loop, the
state is unchanged, the loop stays Running, and later notifications and ticks
are processed as if the event had not occurred. -/
theorem C5_error_event_ignored (os : Nat → OsResult) (key : String) (s : LoopState)
    (obj : RuntimeObject) (rest : List Selected) :
    watchConfigMap key (.event ⟨.Error, obj⟩) = .skip ∧
    step os key s (.event ⟨.Error, obj⟩) = .running s ∧
    run os key s (.event ⟨.Error, obj⟩ :: rest) = run os key s rest :=
  ⟨rfl, rfl, run_cons_running os key s s _ rest rfl⟩

/-- C6: a tick whose fetch fails with `e` makes the goroutine send `e` on the
error channel; the loop panics with `e`, in the state it had (no call of
`writeFile`, `previousData` unchanged), and nothing that follows is handled. -/
theorem C6_fetch_error_fatal (os : Nat → OsResult) (key : String) (s : LoopState)
    (e : String) (rest : List Selected) :
    watchConfigMap key (.tick (.error e)) = .sendErr e ∧
    step os key s (.tick (.error e)) = .panicked e s ∧
    run os key s (.tick (.error e) :: rest) = .panicked e s :=
  ⟨rfl, rfl, run_cons_panicked os key s s e _ rest rfl⟩

/-- C7: a watch event of type Deleted is skipped by the goroutine whatever
object it carries: nothing is sent to the loop, no call of `writeFile` is
made, and the state after the event is the state before it. -/
theorem C7_removed_ignored (os : Nat → OsResult) (key : String) (s : LoopState)
    (obj : RuntimeObject) (rest : List Selected) :
    watchConfigMap key (.event ⟨.Deleted, obj⟩) = .skip ∧
    step os key s (.event ⟨.Deleted, obj⟩) = .running s ∧
    run os key s (.event ⟨.Deleted, obj⟩ :: rest) = run os key s rest :=
  ⟨rfl, rfl, run_cons_running os key s s _ rest rfl⟩

/-- C8: if the steps `before` leave the loop Running in state `s'`, then
handling the cancellation returns (Terminated) in exactly `s'`, with the same
calls of `writeFile` and the same `previousData`, whatever steps `after`
follow. -/
theorem C8_cancellation (os : Nat → OsResult) (key : String) (s s' : LoopState)
    (before after : List Selected) (h : run os key s before = .running s') :
    main os s' .done = .terminated s' ∧
    run os key s (before ++ .done :: after) = .terminated s' := by
  refine ⟨rfl, ?_⟩
  rw [run_append_running os key before (.done :: after) s s' h]
  exact run_cons_terminated os key s' s' .done after rfl

/-- C8 (witness): after Created `"A"`, cancellation terminates with the single
write `"A"` although an Updated notification with `"B"` follows. -/
theorem C8_cancellation_witness :
    run allOk "rules.toml" (LoopState.init "")
      ([created [("rules.toml", "A")]] ++ .done :: [updated [("rules.toml", "B")]])
      = .terminated ⟨"A", "A", [⟨"A", none⟩]⟩ :=
  (C8_cancellation allOk "rules.toml" (LoopState.init "") ⟨"A", "A", [⟨"A", none⟩]⟩
    [created [("rules.toml", "A")]] [updated [("rules.toml", "B")]] (by decide)).2

/-- C9: when the goroutine sends a value `v` that differs from `previousData`
and `writeFile` returns the error `e`, the loop panics with `e`; `writeFile`
has been called exactly once more, with `v`; `previousData` keeps its value;
and nothing that follows is handled (no retry). -/
theorem C9_write_error_fatal (os : Nat → OsResult) (key : String) (s : LoopState)
    (sel : Selected) (v e : String) (rest : List Selected)
    (hsel : watchConfigMap key sel = .sendData v) (hne : v ≠ s.previousData)
    (hfail : (writeFile (os s.calls.length) s.file v).2 = some e) :
    step os key s sel = .panicked e
      { s with file := (writeFile (os s.calls.length) s.file v).1,
               calls := s.calls ++ [⟨v, some e⟩] } ∧
    run os key s (sel :: rest) = step os key s sel ∧
    (run os key s (sel :: rest)).state.writes = s.writes ++ [v] ∧
    (run os key s (sel :: rest)).state.previousData = s.previousData := by
  have hst : step os key s sel = main os s (.data v) := by unfold step; rw [hsel]
  have hp := main_data_fail os s v e hne hfail
  rw [← hst] at hp
  have hr := run_cons_panicked os key s _ e sel rest hp
  refine ⟨hp, hr.trans hp.symm, ?_, ?_⟩
  · rw [hr]
    simp [Outcome.state, LoopState.writes]
  · rw [hr]
    rfl

/-- C9 (witness): after `"A"` was written, an Updated notification with `"B"`
whose write fails in `WriteString`. -/
theorem C9_write_error_fatal_witness :
    run (fun _ => .writeFails "" "no space left on device") "rules.toml"
        ⟨"A", "A", [⟨"A", none⟩]⟩ (updated [("rules.toml", "B")] :: [tickOk [("rules.toml", "B")]])
      = step (fun _ => .writeFails "" "no space left on device") "rules.toml"
        ⟨"A", "A", [⟨"A", none⟩]⟩ (updated [("rules.toml", "B")]) ∧
    (run (fun _ => .writeFails "" "no space left on device") "rules.toml"
        ⟨"A", "A", [⟨"A", none⟩]⟩
        (updated [("rules.toml", "B")] :: [tickOk [("rules.toml", "B")]])).state.writes = ["A", "B"] ∧
    (run (fun _ => .writeFails "" "no space left on device") "rules.toml"
        ⟨"A", "A", [⟨"A", none⟩]⟩
        (updated [("rules.toml", "B")] :: [tickOk [("rules.toml", "B")]])).state.previousData = "A" :=
  (C9_write_error_fatal (fun _ => .writeFails "" "no space left on device") "rules.toml"
    ⟨"A", "A", [⟨"A", none⟩]⟩ (updated [("rules.toml", "B")]) "B"
    "could not open file for writing: no space left on device" [tickOk [("rules.toml", "B")]]
    (by decide) (by decide) (by decide)).2

/-- C10: from the initial state, observations whose tracked value is empty
(the key absent or mapped to `""`) cause no call of `writeFile` and leave the
initial state, so the run continues as if they had not occurred; and whatever
steps follow and whatever the writes do, the first content ever passed to
`writeFile` is not the empty string. -/
theorem C10_leading_empty_never_written (os : Nat → OsResult) (key file : String)
    (empties : List Observation) (rest : List Selected)
    (h : ∀ o ∈ empties, o.value key = "") :
    run os key (LoopState.init file) (empties.map Observation.toSelected)
      = .running (LoopState.init file) ∧
    run os key (LoopState.init file) (empties.map Observation.toSelected ++ rest)
      = run os key (LoopState.init file) rest ∧
    (run os key (LoopState.init file)
      (empties.map Observation.toSelected ++ rest)).state.writes.head? ≠ some "" := by
  have h1 : run os key (LoopState.init file) (empties.map Observation.toSelected)
      = .running (LoopState.init file) := by
    induction empties with
    | nil => rfl
    | cons o os' ih =>
      have ho : o.value key = (LoopState.init file).previousData :=
        h o (List.mem_cons_self o os')
      have hstep : step os key (LoopState.init file) o.toSelected
          = .running (LoopState.init file) := by
        rw [step_observation, ho, main_data_same]
      rw [List.map_cons, run_cons_running os key _ _ _ _ hstep]
      exact ih (fun o' ho' => h o' (List.mem_cons_of_mem o ho'))
  refine ⟨h1, run_append_running os key _ rest _ _ h1, ?_⟩
  exact (run_invariant
    (fun s => s.writes.head? ≠ some "" ∧ (s.calls = [] → s.previousData = "")) os key
    (fun s sel hs => step_keeps_first_write os key s sel hs) _ (LoopState.init file)
    ⟨by simp [LoopState.init, LoopState.writes], fun _ => rfl⟩).1

/-- C10 (witness): a Created notification without the key and a tick fetching
`""`, followed by an Updated notification with `"A"`: the only write is `"A"`. -/
theorem C10_leading_empty_never_written_witness :
    run allOk "rules.toml" (LoopState.init "")
      (List.map Observation.toSelected [⟨.created, [("other", "x")]⟩, ⟨.tick, [("rules.toml", "")]⟩]
        ++ [updated [("rules.toml", "A")]])
      = run allOk "rules.toml" (LoopState.init "") [updated [("rules.toml", "A")]] :=
  (C10_leading_empty_never_written allOk "rules.toml" ""
    [⟨.created, [("other", "x")]⟩, ⟨.tick, [("rules.toml", "")]⟩] [updated [("rules.toml", "A")]]
    (by decide)).2.1

end ConfigmapPuller
